import Mathlib

/-!
Verification of the jackpoint session/room bridge.

This file gives a shallow embedding of the core of the repository:
the session-key derivation (getSessionKey, src part_002), the
tmux-target parser and inbound timeline handler (src/matrix-listener.js),
the room resolver (getSessionRoom / createSessionRoom, src part_002),
the typing-indicator path (setTyping / getClient, src part_002),
the persistent store loader (loadSession, src/lib/config.js) and the
IPC server shutdown (IPCServer.stop, src part_003).

External effects (the matrix client, the file system, tmux) are modelled
as explicit parameters and traces: every function returns, besides its
value, the updated store and the list of transport calls it issued.
-/

namespace Jackpoint

/-- JavaScript string truthiness for an optional string: null/undefined and
the empty string are falsy. -/
def truthy : Option String → Bool
  | none => false
  | some s => s ≠ ""

/-- Association-list lookup, modelling property access on a JS object. -/
def assocLookup (l : List (String × String)) (k : String) : Option String :=
  match l with
  | [] => none
  | (k₀, v₀) :: rest => if k₀ = k then some v₀ else assocLookup rest k

/-- Association-list update, modelling property assignment on a JS object:
an existing key keeps its position, a new key is appended. -/
def assocInsert (l : List (String × String)) (k v : String) : List (String × String) :=
  match l with
  | [] => [(k, v)]
  | (k₀, v₀) :: rest =>
    if k₀ = k then (k₀, v) :: rest else (k₀, v₀) :: assocInsert rest k v

/-! ## Session identity (getSessionKey, src part_002 lines 430-441) -/

/-- Embedding of getSessionKey.  The ambient environment (hostname, the
result of the tmux pane query, the cwd argument) is passed explicitly;
getTmuxPane returns null when tmux is absent, and the function falls back
to hostname:cwd, then hostname:default. -/
def getSessionKey (host : String) (pane : Option String) (cwd : Option String) : String :=
  if truthy pane then host ++ ":" ++ pane.getD ""
  else if truthy cwd then host ++ ":" ++ cwd.getD ""
  else host ++ ":default"

/-! ## Tmux target parsing (getTmuxTarget, src/matrix-listener.js lines 79-89) -/

/-- Splitting a character list at every occurrence of a separator character,
the semantics of the JS String.split used by getTmuxTarget (split on a
one-character separator, keeping empty segments). -/
def splitOnChar (c : Char) : List Char → List (List Char)
  | [] => [[]]
  | x :: xs =>
    let r := splitOnChar c xs
    if x = c then [] :: r
    else
      match r with
      | [] => [[x]]
      | y :: ys => (x :: y) :: ys

/-- Joining character-list segments with a separator character, the
semantics of the JS Array.join used by getTmuxTarget. -/
def joinChar (c : Char) : List (List Char) → List Char
  | [] => []
  | [y] => y
  | y :: ys => y ++ c :: joinChar c ys

/-- Embedding of getTmuxTarget: split the session key on a colon; with at
least three parts the target is everything after the hostname segment,
with exactly two parts (hostname:path fallback) or fewer the target is
null. -/
def getTmuxTarget (sessionKey : String) : Option String :=
  let parts := splitOnChar ':' sessionKey.toList
  if 3 ≤ parts.length then some (String.mk (joinChar ':' (parts.drop 1)))
  else none

/-! ## Inbound listener (MatrixListener, src/matrix-listener.js) -/

/-- A timeline event as seen by the Room.timeline handler: the fields the
handler reads from (event, room, toStartOfTimeline). -/
structure MEvent where
  eventId : String
  roomId : String
  sender : String
  etype : String
  msgtype : String
  body : String
  toStartOfTimeline : Bool
deriving Repr, DecidableEq

/-- The mutable state of a MatrixListener relevant to the timeline handler:
syncReady, the roomId→sessionKey reverse map, the insertion-ordered dedup
set, the optional target filter, and the account user id of the session it
started with. -/
structure ListenerState where
  syncReady : Bool
  roomToSession : List (String × String)
  processedEvents : List String
  myTmuxTarget : Option String
  userId : String
deriving Repr, DecidableEq

/-- Listener state as built by the constructor and start(): empty dedup
set, reverse map read from the store, syncReady set by the sync callback. -/
def mkListener (ready : Bool) (roomMap : List (String × String))
    (target : Option String) (uid : String) : ListenerState :=
  { syncReady := ready, roomToSession := roomMap, processedEvents := [],
    myTmuxTarget := target, userId := uid }

/-- The five early returns of the Room.timeline handler that precede the
dedup check, conjoined: the event is not historical backfill, sync has
completed, the event is a plain text chat message, and the sender is not
this account. -/
def passesPrefilters (s : ListenerState) (e : MEvent) : Bool :=
  !e.toStartOfTimeline && s.syncReady && (e.etype == "m.room.message") &&
    (e.msgtype == "m.text") && (e.sender != s.userId)

/-- Inserting an event id into the dedup set: append, then evict the
oldest (first-inserted) entry when the 1000-entry capacity is exceeded. -/
def dedupInsert (pe : List String) (id : String) : List String :=
  let added := pe ++ [id]
  if 1000 < added.length then added.tail else added

/-- The routing tail of the handler: roomId→sessionKey lookup, sessionKey→
tmux-target parse, then the optional per-target filter; none means the
handler returns without a pane write. -/
def routeTarget (s : ListenerState) (e : MEvent) : Option String :=
  match assocLookup s.roomToSession e.roomId with
  | none => none
  | some sessionKey =>
    match getTmuxTarget sessionKey with
    | none => none
    | some tmuxTarget =>
      if truthy s.myTmuxTarget ∧ tmuxTarget ≠ s.myTmuxTarget.getD "" then none
      else some tmuxTarget

/-- Embedding of the Room.timeline handler body: returns the updated
listener state and the pane writes performed (each a target/message pair
handed to sendToTmux).  Filter order follows the source: the prefilters,
the dedup check (insert then evict the oldest past 1000), then routing. -/
def handleTimeline (s : ListenerState) (e : MEvent) : ListenerState × List (String × String) :=
  if passesPrefilters s e then
    if e.eventId ∈ s.processedEvents then (s, [])
    else
      let s₁ := { s with processedEvents := dedupInsert s.processedEvents e.eventId }
      match routeTarget s e with
      | none => (s₁, [])
      | some tgt => (s₁, [(tgt, e.body)])
  else (s, [])

/-- Delivering a sequence of timeline events to the listener, accumulating
the pane writes. -/
def runEvents (s : ListenerState) : List MEvent → ListenerState × List (String × String)
  | [] => (s, [])
  | e :: es =>
    ((runEvents (handleTimeline s e).1 es).1,
     (handleTimeline s e).2 ++ (runEvents (handleTimeline s e).1 es).2)

/-! ## Persistent store and room resolver (src part_002) -/

/-- The persisted session record: cached credential, the sessionKey→roomId
map, and the current-room pointer.  Absent JSON fields are none. -/
structure SessionRecord where
  accessToken : Option String
  userId : Option String
  rooms : Option (List (String × String))
  currentRoom : Option String
deriving Repr, DecidableEq

/-- The empty session record returned when the backing file is absent. -/
def SessionRecord.empty : SessionRecord :=
  { accessToken := none, userId := none, rooms := none, currentRoom := none }

/-- A transport call issued to the messaging service. -/
inductive MCall
  | whoami
  | login (user : String)
  | getJoinedRooms
  | createRoom (invitee : String) (name : String)
  | sendText (room : String) (text : String)
  | sendTyping (room : String) (typing : Bool) (timeoutMs : Option Nat)
deriving Repr, DecidableEq

/-- The messaging service as an oracle: the outcome each transport
operation would have if issued during the run under consideration. -/
structure MatrixConn where
  whoamiOk : Bool
  loginResult : Except String (String × String)
  joinedRooms : Except String (List String)
  createRoomResult : Except String String
  sendTypingResult : Except String Unit
deriving Repr

/-- Embedding of createSessionRoom (src part_002 lines 494-508): derive the
room name from the sessionName or the timestamp, call createRoom.  The
timestamp string is passed in as now. -/
def createSessionRoom (conn : MatrixConn) (recipientId : String)
    (sessionName : Option String) (now : String) :
    Except String String × List MCall :=
  let roomName :=
    if truthy sessionName then "Claude: " ++ sessionName.getD ""
    else "Claude " ++ now
  (conn.createRoomResult, [MCall.createRoom recipientId roomName])

/-- Embedding of getSessionRoom (src part_002 lines 511-547).  The store is
threaded explicitly: the input is the persisted record loadSession reads,
the output is the persisted record after any saveSession, with the list of
transport calls issued.  On the existing-room path the joined-room listing
is consulted; a listing failure is swallowed and a membership miss or a
failure falls through to room creation; a creation failure propagates with
no save. -/
def getSessionRoom (conn : MatrixConn) (recipientId : String)
    (sessionKey : Option String) (sessionName : Option String) (now : String)
    (store : SessionRecord) :
    Except String (String × Bool) × SessionRecord × List MCall :=
  let rooms := store.rooms.getD []
  let createNew : List MCall → Except String (String × Bool) × SessionRecord × List MCall :=
    fun pre =>
      let (res, tr) := createSessionRoom conn recipientId sessionName now
      match res with
      | .error e => (.error e, store, pre ++ tr)
      | .ok roomId =>
        let rooms₁ :=
          if truthy sessionKey then assocInsert rooms (sessionKey.getD "") roomId
          else rooms
        (.ok (roomId, false),
         { store with rooms := some rooms₁, currentRoom := some roomId },
         pre ++ tr)
  if truthy sessionKey ∧ truthy (assocLookup rooms (sessionKey.getD "")) then
    let existingRoomId := (assocLookup rooms (sessionKey.getD "")).getD ""
    match conn.joinedRooms with
    | .ok joined =>
      if existingRoomId ∈ joined then
        (.ok (existingRoomId, true),
         { store with rooms := some rooms, currentRoom := some existingRoomId },
         [MCall.getJoinedRooms])
      else createNew [MCall.getJoinedRooms]
    | .error _ => createNew [MCall.getJoinedRooms]
  else createNew []

/-- Embedding of getClient (src part_002 lines 447-491): with a truthy
cached credential, verify it with whoami and return it; otherwise (or when
whoami fails) log in with the configured password, replacing the whole
persisted record with the fresh credential; missing configuration is an
error.  The value returned is the session record the client was built
from. -/
def getClient (user pass : String) (conn : MatrixConn) (store : SessionRecord) :
    Except String SessionRecord × SessionRecord × List MCall :=
  let tryLogin : List MCall → Except String SessionRecord × SessionRecord × List MCall :=
    fun pre =>
      if user = "" ∨ pass = "" then
        (.error "Matrix credentials not configured. Run jackpoint --setup to configure.",
         store, pre)
      else
        match conn.loginResult with
        | .error e => (.error e, store, pre ++ [MCall.login user])
        | .ok (tok, uid) =>
          let newSession : SessionRecord :=
            { accessToken := some tok, userId := some uid,
              rooms := none, currentRoom := none }
          (.ok newSession, newSession, pre ++ [MCall.login user])
  if truthy store.accessToken ∧ truthy store.userId then
    if conn.whoamiOk then (.ok store, store, [MCall.whoami])
    else tryLogin [MCall.whoami]
  else tryLogin []

/-- Embedding of setTyping (src part_002 lines 563-572): authenticate via
getClient, reload the store, silently skip when no currentRoom is set,
otherwise issue the typing call with a 30000 ms timeout when starting. -/
def setTyping (user pass : String) (conn : MatrixConn) (isTyping : Bool)
    (store : SessionRecord) :
    Except String Unit × SessionRecord × List MCall :=
  let (cl, store₁, tr₁) := getClient user pass conn store
  match cl with
  | .error e => (.error e, store₁, tr₁)
  | .ok _ =>
    if ¬truthy store₁.currentRoom then (.ok (), store₁, tr₁)
    else
      let call := MCall.sendTyping (store₁.currentRoom.getD "") isTyping
        (if isTyping then some 30000 else none)
      match conn.sendTypingResult with
      | .ok _ => (.ok (), store₁, tr₁ ++ [call])
      | .error e => (.error e, store₁, tr₁ ++ [call])

/-! ## IPC server shutdown (IPCServer, src part_003) -/

/-- The IPCServer state the stop method touches: the socket path and
whether this.server is non-null. -/
structure IPCServer where
  sessionId : String
  socketPath : String
  server : Bool
deriving Repr, DecidableEq

/-- The IPCServer constructor: socket path derived from the session id,
server not yet created. -/
def mkIPCServer (sessionId : String) : IPCServer :=
  { sessionId := sessionId,
    socketPath := "/tmp/claude-matrix-" ++ sessionId ++ ".sock",
    server := false }

/-- Embedding of IPCServer.stop (src part_003 lines 82-99) over a file
system modelled as the set of existing paths: close the server if one
exists, then unlink the socket file if it exists.  Both steps are guarded
and total, so stop never fails. -/
def IPCServer.stop (srv : IPCServer) (fs : Finset String) : IPCServer × Finset String :=
  let srv₁ := if srv.server then { srv with server := false } else srv
  let fs₁ := if srv.socketPath ∈ fs then fs.erase srv.socketPath else fs
  (srv₁, fs₁)

/-! ## JSON parsing and the store loader (src/lib/config.js lines 44-50)

loadSession reads the session file and hands its text to JSON.parse with
no recovery, so the parse is modelled for real: a JSON document value and
an executable parser following the JSON grammar (values null, true,
false, number, string with escapes, array, object; whitespace between
tokens; nothing but whitespace after the top-level value). -/

/-- A parsed JSON document.  Numbers keep their source lexeme: the loader
claims depend on parse success, not numeric value. -/
inductive Json
  | null
  | bool (b : Bool)
  | num (lexeme : String)
  | str (s : String)
  | arr (elems : List Json)
  | obj (fields : List (String × Json))

/-- JSON insignificant whitespace. -/
def isJsonWs (c : Char) : Bool :=
  c = ' ' ∨ c = '\t' ∨ c = '\n' ∨ c = '\r'

/-- Drop leading JSON whitespace. -/
def skipWs : List Char → List Char
  | [] => []
  | c :: cs => if isJsonWs c then skipWs cs else c :: cs

/-- Value of a hexadecimal digit. -/
def hexVal (c : Char) : Option Nat :=
  if '0' ≤ c ∧ c ≤ '9' then some (c.toNat - '0'.toNat)
  else if 'a' ≤ c ∧ c ≤ 'f' then some (c.toNat - 'a'.toNat + 10)
  else if 'A' ≤ c ∧ c ≤ 'F' then some (c.toNat - 'A'.toNat + 10)
  else none

/-- Parse the body of a JSON string after the opening quote: plain
characters above 0x1f, the eight short escapes, and \uXXXX.  Returns the
decoded characters and the remaining input after the closing quote. -/
def parseStrChars : Nat → List Char → Option (List Char × List Char)
  | 0, _ => none
  | _ + 1, [] => none
  | fuel + 1, c :: cs =>
    if c = '"' then some ([], cs)
    else if c = '\\' then
      match cs with
      | [] => none
      | e :: cs₁ =>
        let esc : Option (Char × List Char) :=
          if e = '"' then some ('"', cs₁)
          else if e = '\\' then some ('\\', cs₁)
          else if e = '/' then some ('/', cs₁)
          else if e = 'b' then some ('\x08', cs₁)
          else if e = 'f' then some ('\x0c', cs₁)
          else if e = 'n' then some ('\n', cs₁)
          else if e = 'r' then some ('\r', cs₁)
          else if e = 't' then some ('\t', cs₁)
          else if e = 'u' then
            match cs₁ with
            | h₁ :: h₂ :: h₃ :: h₄ :: cs₂ =>
              match hexVal h₁, hexVal h₂, hexVal h₃, hexVal h₄ with
              | some a, some b, some c₂, some d =>
                some (Char.ofNat (((a * 16 + b) * 16 + c₂) * 16 + d), cs₂)
              | _, _, _, _ => none
            | _ => none
          else none
        match esc with
        | none => none
        | some (ch, rest) =>
          match parseStrChars fuel rest with
          | none => none
          | some (tail, r) => some (ch :: tail, r)
    else if c.toNat < 32 then none
    else
      match parseStrChars fuel cs with
      | none => none
      | some (tail, r) => some (c :: tail, r)

/-- Take a maximal run of decimal digits. -/
def takeDigits : List Char → List Char × List Char
  | [] => ([], [])
  | c :: cs =>
    if c.isDigit then
      let (ds, rest) := takeDigits cs
      (c :: ds, rest)
    else ([], c :: cs)

/-- Parse a JSON number: optional minus, integer part with no leading
zero, optional fraction, optional exponent.  Returns its lexeme. -/
def parseNumber (s : List Char) : Option (Json × List Char) :=
  let (sign, s₁) := match s with | '-' :: r => (['-'], r) | _ => (([] : List Char), s)
  match s₁ with
  | [] => none
  | c :: cs =>
    if ¬c.isDigit then none
    else
      let (intPart, s₂) :=
        if c = '0' then ([c], cs)
        else takeDigits s₁
      match s₂ with
      | d :: _ =>
        if c = '0' ∧ d.isDigit then none
        else
          let fracRes : Option (List Char × List Char) :=
            match s₂ with
            | '.' :: r =>
              let (ds, rest) := takeDigits r
              if ds.isEmpty then none else some ('.' :: ds, rest)
            | _ => some ([], s₂)
          match fracRes with
          | none => none
          | some (frac, s₄) =>
            let expRes : Option (List Char × List Char) :=
              match s₄ with
              | e :: r =>
                if e = 'e' ∨ e = 'E' then
                  let (es, r₁) := match r with
                    | '+' :: r₂ => (['+'], r₂)
                    | '-' :: r₂ => (['-'], r₂)
                    | _ => (([] : List Char), r)
                  let (ds, rest) := takeDigits r₁
                  if ds.isEmpty then none else some (e :: (es ++ ds), rest)
                else some ([], s₄)
              | [] => some ([], s₄)
            match expRes with
            | none => none
            | some (ex, rest) =>
              some (Json.num (String.mk (sign ++ intPart ++ frac ++ ex)), rest)
      | [] => some (Json.num (String.mk (sign ++ intPart)), [])

mutual

/-- Parse one JSON value after skipping leading whitespace. -/
def parseValue : Nat → List Char → Option (Json × List Char)
  | 0, _ => none
  | fuel + 1, s =>
    match skipWs s with
    | 'n' :: 'u' :: 'l' :: 'l' :: rest => some (.null, rest)
    | 't' :: 'r' :: 'u' :: 'e' :: rest => some (.bool true, rest)
    | 'f' :: 'a' :: 'l' :: 's' :: 'e' :: rest => some (.bool false, rest)
    | '"' :: rest =>
      match parseStrChars (rest.length + 1) rest with
      | none => none
      | some (body, r) => some (.str (String.mk body), r)
    | '[' :: rest =>
      (match skipWs rest with
       | ']' :: r => some (.arr [], r)
       | _ =>
         match parseElems fuel rest with
         | none => none
         | some (es, r) => some (.arr es, r))
    | '{' :: rest =>
      (match skipWs rest with
       | '}' :: r => some (.obj [], r)
       | _ =>
         match parseFields fuel rest with
         | none => none
         | some (fs, r) => some (.obj fs, r))
    | rest => parseNumber rest

/-- Parse the comma-separated elements of a non-empty array, including the
closing bracket. -/
def parseElems : Nat → List Char → Option (List Json × List Char)
  | 0, _ => none
  | fuel + 1, s =>
    match parseValue fuel s with
    | none => none
    | some (v, r) =>
      match skipWs r with
      | ',' :: r₁ =>
        (match parseElems fuel r₁ with
         | none => none
         | some (vs, r₂) => some (v :: vs, r₂))
      | ']' :: r₁ => some ([v], r₁)
      | _ => none

/-- Parse the comma-separated members of a non-empty object, including the
closing brace. -/
def parseFields : Nat → List Char → Option (List (String × Json) × List Char)
  | 0, _ => none
  | fuel + 1, s =>
    match skipWs s with
    | '"' :: rest =>
      (match parseStrChars (rest.length + 1) rest with
       | none => none
       | some (key, r) =>
         match skipWs r with
         | ':' :: r₁ =>
           (match parseValue fuel r₁ with
            | none => none
            | some (v, r₂) =>
              match skipWs r₂ with
              | ',' :: r₃ =>
                (match parseFields fuel r₃ with
                 | none => none
                 | some (fs, r₄) => some ((String.mk key, v) :: fs, r₄))
              | '}' :: r₃ => some ([(String.mk key, v)], r₃)
              | _ => none)
         | _ => none)
    | _ => none

end

/-- Embedding of JSON.parse as a parse-or-fail function: parse one value
and require only whitespace after it. -/
def jsonParse (s : String) : Option Json :=
  let cs := s.toList
  match parseValue (4 * (cs.length + 1)) cs with
  | none => none
  | some (v, rest) => if (skipWs rest).isEmpty then some v else none

/-- Embedding of loadSession (src/lib/config.js lines 44-50) over the
content of the backing session file (none when the file is absent): an
absent file yields the empty object, otherwise the text goes through
JSON.parse, whose failure propagates as an exception. -/
def loadSession (file : Option String) : Except String Json :=
  match file with
  | none => .ok (Json.obj [])
  | some content =>
    match jsonParse content with
    | some j => .ok j
    | none => .error "JSON.parse: unexpected token"

/-! ## Concrete fixtures used by witness theorems -/

/-- A messaging-service oracle for concrete runs: valid token, one joined
room, room creation yields a fresh id. -/
def exConn : MatrixConn :=
  { whoamiOk := true, loginResult := .ok ("tok", "@bot:hs"),
    joinedRooms := .ok ["!roomA:hs"], createRoomResult := .ok "!roomNew:hs",
    sendTypingResult := .ok () }

/-- A persisted record holding a credential and one session-key→room
mapping whose room is joined. -/
def exStore : SessionRecord :=
  { accessToken := some "tok", userId := some "@bot:hs",
    rooms := some [("myhost:work:0.1", "!roomA:hs")], currentRoom := none }

/-- A persisted record whose mapped room is no longer joined. -/
def exStoreStale : SessionRecord :=
  { accessToken := some "tok", userId := some "@bot:hs",
    rooms := some [("myhost:work:0.1", "!gone:hs")], currentRoom := none }

/-- An inbound text event from the recipient in the mapped room. -/
def exEvent : MEvent :=
  { eventId := "$e1", roomId := "!roomA:hs", sender := "@artpi:hs",
    etype := "m.room.message", msgtype := "m.text", body := "hello",
    toStartOfTimeline := false }

/-- A ready listener watching the mapped room with no target filter. -/
def exListener : ListenerState :=
  mkListener true [("!roomA:hs", "myhost:work:0.1")] none "@bot:hs"

/-- A ready listener whose watched room belongs to a directory-fallback
session key. -/
def exListenerFallback : ListenerState :=
  mkListener true [("!roomA:hs", "host:/tmp/dir")] none "@bot:hs"

/-- An inbound event sent by the listener account itself. -/
def exSelfEvent : MEvent :=
  { exEvent with sender := "@bot:hs" }

/-- A messaging-service oracle whose room-creation call fails. -/
def exConnFail : MatrixConn :=
  { whoamiOk := true, loginResult := .ok ("tok", "@bot:hs"),
    joinedRooms := .ok ["!roomA:hs"],
    createRoomResult := .error "createRoom failed",
    sendTypingResult := .ok () }

end Jackpoint

namespace Jackpoint

/-! ## Helper lemmas -/

/-- Updating an association list makes the updated key map to the new
value. -/
theorem assocLookup_assocInsert (l : List (String × String)) (k v : String) :
    assocLookup (assocInsert l k v) k = some v := by
  induction l with
  | nil => simp [assocInsert, assocLookup]
  | cons p rest ih =>
    obtain ⟨k₀, v₀⟩ := p
    by_cases h : k₀ = k
    · simp [assocInsert, assocLookup, h]
    · simp [assocInsert, assocLookup, h, ih]

/-- An event id is present after dedup insertion, provided the set
respected its capacity beforehand. -/
theorem dedupInsert_mem (pe : List String) (id : String)
    (hlen : pe.length ≤ 1000) : id ∈ dedupInsert pe id := by
  simp only [dedupInsert]
  split
  · next hgt =>
    rcases pe with _ | ⟨a, as⟩
    · simp at hgt
    · simp
  · simp

/-- Dedup insertion never grows the set past 1000 entries. -/
theorem dedupInsert_length (pe : List String) (id : String)
    (hlen : pe.length ≤ 1000) : (dedupInsert pe id).length ≤ 1000 := by
  simp only [dedupInsert]
  split
  · next hgt => simp at hgt ⊢; omega
  · next hle => simp at hle ⊢; omega

/-- Truthiness of a present string is its non-emptiness. -/
theorem truthy_some_iff (s : String) : truthy (some s) = true ↔ s ≠ "" := by
  simp [truthy]

/-- One timeline delivery performs at most one pane write. -/
theorem handleTimeline_writes_length (s : ListenerState) (e : MEvent) :
    (handleTimeline s e).2.length ≤ 1 := by
  by_cases hp : passesPrefilters s e = true
  · by_cases hm : e.eventId ∈ s.processedEvents
    · simp [handleTimeline, hp, hm]
    · unfold handleTimeline
      simp only [hp, if_true]
      cases hr : routeTarget s e <;> simp [hr, hm]
  · simp [handleTimeline, hp]

/-- A delivery whose event id is already in the dedup set is a complete
no-op. -/
theorem handleTimeline_seen (s : ListenerState) (e : MEvent)
    (h : e.eventId ∈ s.processedEvents) : handleTimeline s e = (s, []) := by
  by_cases hp : passesPrefilters s e = true
  · simp [handleTimeline, hp, h]
  · simp [handleTimeline, hp]

/-- A delivery that performed a pane write leaves its event id in the
dedup set, provided the set respected its capacity beforehand. -/
theorem handleTimeline_writes_mem (s : ListenerState) (e : MEvent)
    (hlen : s.processedEvents.length ≤ 1000)
    (hw : (handleTimeline s e).2 ≠ []) :
    e.eventId ∈ (handleTimeline s e).1.processedEvents := by
  by_cases hp : passesPrefilters s e = true
  · by_cases hm : e.eventId ∈ s.processedEvents
    · rw [handleTimeline_seen s e hm]
      simpa using hm
    · unfold handleTimeline
      simp only [hp, if_true]
      cases hr : routeTarget s e <;>
        simp [hr, hm, dedupInsert_mem _ _ hlen]
  · exact absurd (by simp [handleTimeline, hp]) hw

/-- One timeline delivery never grows the dedup set past 1000 entries. -/
theorem handleTimeline_preserves_bound (s : ListenerState) (e : MEvent)
    (h : s.processedEvents.length ≤ 1000) :
    (handleTimeline s e).1.processedEvents.length ≤ 1000 := by
  by_cases hp : passesPrefilters s e = true
  · by_cases hm : e.eventId ∈ s.processedEvents
    · rw [handleTimeline_seen s e hm]
      simpa
    · unfold handleTimeline
      simp only [hp, if_true]
      cases hr : routeTarget s e <;>
        simp [hr, hm, dedupInsert_length _ _ h]
  · simpa [handleTimeline, hp]

/-- The dedup-set bound is preserved by any sequence of deliveries. -/
theorem runEvents_bound (s : ListenerState) (events : List MEvent)
    (h : s.processedEvents.length ≤ 1000) :
    (runEvents s events).1.processedEvents.length ≤ 1000 := by
  induction events generalizing s with
  | nil => simpa [runEvents]
  | cons e es ih =>
    simp only [runEvents]
    exact ih _ (handleTimeline_preserves_bound s e h)

/-! ## Claim theorems -/

/-- Claim C3: delivering two inbound timeline events carrying the same
event id to the listener results in at most one pane-write call, provided
the dedup set respected its capacity beforehand (true of every reachable
state by C4). -/
theorem dedup_idempotent (s : ListenerState) (e₁ e₂ : MEvent)
    (hid : e₁.eventId = e₂.eventId)
    (hlen : s.processedEvents.length ≤ 1000) :
    (runEvents s [e₁, e₂]).2.length ≤ 1 := by
  simp only [runEvents, List.append_nil]
  by_cases hw : (handleTimeline s e₁).2 = []
  · rw [hw]
    simpa using handleTimeline_writes_length (handleTimeline s e₁).1 e₂
  · have hmem := handleTimeline_writes_mem s e₁ hlen hw
    rw [hid] at hmem
    rw [handleTimeline_seen _ e₂ hmem]
    simpa using handleTimeline_writes_length s e₁

/-- Witness for C3 at a concrete listener and a concrete duplicated
event. -/
theorem dedup_idempotent_witness :
    exEvent.eventId = exEvent.eventId ∧
    exListener.processedEvents.length ≤ 1000 ∧
    (runEvents exListener [exEvent, exEvent]).2.length ≤ 1 :=
  ⟨rfl, by simp [exListener, mkListener],
   dedup_idempotent exListener exEvent exEvent rfl (by simp [exListener, mkListener])⟩

/-- Claim C4: from the constructor state (empty dedup set), after any
sequence of delivered timeline events the dedup set holds at most 1000
entries; the insertion step evicts the oldest-inserted entry when the
bound would be exceeded. -/
theorem processedEvents_bounded (ready : Bool) (roomMap : List (String × String))
    (target : Option String) (uid : String) (events : List MEvent) :
    (runEvents (mkListener ready roomMap target uid) events).1.processedEvents.length ≤ 1000 :=
  runEvents_bound _ _ (by simp [mkListener])

/-- Claim C5: an inbound event whose sender equals the listener account
user id never triggers a pane write, whatever its other fields. -/
theorem self_echo_suppressed (s : ListenerState) (e : MEvent)
    (h : e.sender = s.userId) : (handleTimeline s e).2 = [] := by
  have hp : passesPrefilters s e = false := by
    simp [passesPrefilters, h]
  simp [handleTimeline, hp]

/-- Witness for C5 at a concrete listener and a self-sent event. -/
theorem self_echo_suppressed_witness :
    exSelfEvent.sender = exListener.userId ∧
    (handleTimeline exListener exSelfEvent).2 = [] :=
  ⟨rfl, self_echo_suppressed exListener exSelfEvent rfl⟩

/-- Claim C1: when the store maps the session key K to room R and the
joined-room listing contains R, room resolution returns (R, true), issues
no room-creation call, and persists the store with currentRoom set to R. -/
theorem room_reuse (conn : MatrixConn) (recip K R now : String)
    (name : Option String) (store : SessionRecord) (joined : List String)
    (hK : K ≠ "") (hR : R ≠ "")
    (hmap : assocLookup (store.rooms.getD []) K = some R)
    (hjr : conn.joinedRooms = Except.ok joined) (hmem : R ∈ joined) :
    (getSessionRoom conn recip (some K) name now store).1 = Except.ok (R, true) ∧
    (∀ i n, MCall.createRoom i n ∉ (getSessionRoom conn recip (some K) name now store).2.2) ∧
    (getSessionRoom conn recip (some K) name now store).2.1.currentRoom = some R := by
  have hEq : getSessionRoom conn recip (some K) name now store =
      (Except.ok (R, true),
       { store with rooms := some (store.rooms.getD []), currentRoom := some R },
       [MCall.getJoinedRooms]) := by
    unfold getSessionRoom
    simp [truthy, hK, hmap, hR, hjr, hmem]
  rw [hEq]
  simp

/-- Witness for C1 at a concrete oracle and store. -/
theorem room_reuse_witness :
    (getSessionRoom exConn "@artpi:hs" (some "myhost:work:0.1") none "ts" exStore).1
      = Except.ok ("!roomA:hs", true) ∧
    (getSessionRoom exConn "@artpi:hs" (some "myhost:work:0.1") none "ts" exStore).2.1.currentRoom
      = some "!roomA:hs" :=
  ⟨(room_reuse exConn "@artpi:hs" "myhost:work:0.1" "!roomA:hs" "ts" none exStore
      ["!roomA:hs"] (by decide) (by decide) rfl rfl (by decide)).1,
   (room_reuse exConn "@artpi:hs" "myhost:work:0.1" "!roomA:hs" "ts" none exStore
      ["!roomA:hs"] (by decide) (by decide) rfl rfl (by decide)).2.2⟩

/-- Claim C2: when the store maps the session key K to room R but R is
not in the joined-room listing (or that listing fails), room resolution
returns the freshly created room id with isExisting false, the new id is
distinct from R, and the persisted store maps K to the new id. -/
theorem room_replacement (conn : MatrixConn) (recip K R N now : String)
    (name : Option String) (store : SessionRecord)
    (hK : K ≠ "") (hR : R ≠ "")
    (hmap : assocLookup (store.rooms.getD []) K = some R)
    (hstale : ∀ joined, conn.joinedRooms = Except.ok joined → R ∉ joined)
    (hcreate : conn.createRoomResult = Except.ok N)
    (hfresh : N ≠ R) :
    (getSessionRoom conn recip (some K) name now store).1 = Except.ok (N, false) ∧
    N ≠ R ∧
    assocLookup ((getSessionRoom conn recip (some K) name now store).2.1.rooms.getD []) K
      = some N := by
  cases hjr : conn.joinedRooms with
  | error e =>
    unfold getSessionRoom createSessionRoom
    simp [truthy, hK, hmap, hR, hjr, hcreate, hfresh, assocLookup_assocInsert]
  | ok joined =>
    have hnm := hstale joined hjr
    unfold getSessionRoom createSessionRoom
    simp [truthy, hK, hmap, hR, hjr, hnm, hcreate, hfresh, assocLookup_assocInsert]

/-- Witness for C2 at a concrete oracle and a store whose recorded room
is no longer joined. -/
theorem room_replacement_witness :
    (getSessionRoom exConn "@artpi:hs" (some "myhost:work:0.1") none "ts" exStoreStale).1
      = Except.ok ("!roomNew:hs", false) ∧
    ("!roomNew:hs" : String) ≠ "!gone:hs" ∧
    assocLookup
      ((getSessionRoom exConn "@artpi:hs" (some "myhost:work:0.1") none "ts" exStoreStale).2.1.rooms.getD [])
      "myhost:work:0.1" = some "!roomNew:hs" :=
  room_replacement exConn "@artpi:hs" "myhost:work:0.1" "!gone:hs" "!roomNew:hs" "ts"
    none exStoreStale (by decide) (by decide) rfl
    (by
      intro joined h
      simp only [exConn] at h
      cases h
      decide)
    rfl (by decide)

/-- Claim C10: when room creation fails during resolution and the session
key has no live existing room, the error propagates to the caller and the
persisted store is unchanged. -/
theorem resolution_atomic_on_create_failure (conn : MatrixConn)
    (recip now : String) (sessionKey name : Option String)
    (store : SessionRecord) (err : String)
    (hcreate : conn.createRoomResult = Except.error err)
    (hnolive : ∀ R joined,
      assocLookup (store.rooms.getD []) (sessionKey.getD "") = some R →
      conn.joinedRooms = Except.ok joined → R ∉ joined) :
    (getSessionRoom conn recip sessionKey name now store).1 = Except.error err ∧
    (getSessionRoom conn recip sessionKey name now store).2.1 = store := by
  cases hlk : assocLookup (store.rooms.getD []) (sessionKey.getD "") with
  | none =>
    unfold getSessionRoom createSessionRoom
    simp [truthy, hlk, hcreate]
  | some R =>
    by_cases hRe : R = ""
    · subst hRe
      unfold getSessionRoom createSessionRoom
      simp [truthy, hlk, hcreate]
    · by_cases hsk : truthy sessionKey = true
      · cases hjr : conn.joinedRooms with
        | error e =>
          unfold getSessionRoom createSessionRoom
          simp only [truthy, hlk, hjr, hcreate]
          constructor <;> split <;> rfl
        | ok joined =>
          have hnm := hnolive R joined hlk hjr
          unfold getSessionRoom createSessionRoom
          simp [hlk, hsk, hRe, hjr, hnm, hcreate, truthy_some_iff]
      · unfold getSessionRoom createSessionRoom
        simp [hlk, hsk, hcreate]

/-- Witness for C10 at a concrete oracle whose createRoom fails, against
the empty store. -/
theorem resolution_atomic_on_create_failure_witness :
    (getSessionRoom exConnFail "@artpi:hs" (some "myhost:work:0.1") none "ts"
      SessionRecord.empty).1 = Except.error "createRoom failed" ∧
    (getSessionRoom exConnFail "@artpi:hs" (some "myhost:work:0.1") none "ts"
      SessionRecord.empty).2.1 = SessionRecord.empty :=
  resolution_atomic_on_create_failure exConnFail "@artpi:hs" "ts"
    (some "myhost:work:0.1") none SessionRecord.empty "createRoom failed" rfl
    (fun R joined hlk _ => by
      simp [SessionRecord.empty, assocLookup] at hlk)

/-- A separator-free character list splits to itself alone. -/
theorem splitOnChar_no_sep (c : Char) (ys : List Char) (h : c ∉ ys) :
    splitOnChar c ys = [ys] := by
  induction ys with
  | nil => rfl
  | cons x xs ih =>
    simp only [List.mem_cons, not_or] at h
    obtain ⟨hx, hxs⟩ := h
    have hx₁ : ¬x = c := fun hh => hx hh.symm
    simp [splitOnChar, hx₁, ih hxs]

/-- Splitting around the first separator occurrence isolates the
separator-free prefix. -/
theorem splitOnChar_append_sep (c : Char) (xs ys : List Char) (h : c ∉ xs) :
    splitOnChar c (xs ++ c :: ys) = xs :: splitOnChar c ys := by
  induction xs with
  | nil => simp [splitOnChar]
  | cons x xs ih =>
    simp only [List.mem_cons, not_or] at h
    obtain ⟨hx, hxs⟩ := h
    have hx₁ : ¬x = c := fun hh => hx hh.symm
    simp [splitOnChar, hx₁, ih hxs]

/-- An event whose room maps to a session key without a tmux target is
never written to a pane. -/
theorem handleTimeline_no_target (s : ListenerState) (e : MEvent) (k : String)
    (hlk : assocLookup s.roomToSession e.roomId = some k)
    (htgt : getTmuxTarget k = none) :
    (handleTimeline s e).2 = [] := by
  have hr : routeTarget s e = none := by
    simp [routeTarget, hlk, htgt]
  by_cases hp : passesPrefilters s e = true
  · by_cases hm : e.eventId ∈ s.processedEvents
    · simp [handleTimeline_seen s e hm]
    · simp [handleTimeline, hp, hm, hr]
  · simp [handleTimeline, hp]

/-- Counterexample to C6 as stated: with no tmux pane and working
directory /tmp/a:b the fallback session key parses to a non-null tmux
target, because the directory itself contains a colon. -/
theorem fallback_key_colon_cx :
    getTmuxTarget (getSessionKey "host" none (some "/tmp/a:b")) ≠ none := by
  decide

/-- Claim C6 (amended): for a directory-fallback session key whose
hostname and working directory contain no colon, the derived tmux target
is null, and the listener performs no pane write for an event whose room
maps to that key. -/
theorem fallback_key_no_target (host cwd : String)
    (hh : (':' : Char) ∉ host.toList) (hc : (':' : Char) ∉ cwd.toList)
    (hcwd : cwd ≠ "") :
    getTmuxTarget (getSessionKey host none (some cwd)) = none ∧
    ∀ (s : ListenerState) (e : MEvent),
      assocLookup s.roomToSession e.roomId
        = some (getSessionKey host none (some cwd)) →
      (handleTimeline s e).2 = [] := by
  have hkey : getSessionKey host none (some cwd) = host ++ ":" ++ cwd := by
    simp [getSessionKey, truthy, hcwd]
  have hcolon : (":" : String).toList = [':'] := rfl
  have hlist : (host ++ ":" ++ cwd).toList = host.toList ++ ':' :: cwd.toList := by
    simp [String.toList, String.data_append]
  have htgt : getTmuxTarget (host ++ ":" ++ cwd) = none := by
    unfold getTmuxTarget
    rw [hlist, splitOnChar_append_sep ':' _ _ hh, splitOnChar_no_sep ':' _ hc]
    simp
  constructor
  · rw [hkey]
    exact htgt
  · intro s e hlk
    rw [hkey] at hlk
    exact handleTimeline_no_target s e (host ++ ":" ++ cwd) hlk htgt

/-- Witness for the amended C6 at a concrete colon-free fallback key and
a listener watching its room. -/
theorem fallback_key_no_target_witness :
    getTmuxTarget (getSessionKey "host" none (some "/tmp/dir")) = none ∧
    (handleTimeline exListenerFallback exEvent).2 = [] :=
  ⟨(fallback_key_no_target "host" "/tmp/dir" (by decide) (by decide) (by decide)).1,
   (fallback_key_no_target "host" "/tmp/dir" (by decide) (by decide) (by decide)).2
     exListenerFallback exEvent (by decide)⟩

/-- Counterexample to C7 as stated: an existing but unparseable (here
empty) session file makes loadSession propagate the JSON parse failure
instead of returning a record. -/
theorem loadSession_unparseable_cx :
    (loadSession (some "")).isOk = false := by
  rfl

/-- Claim C7 (amended): loadSession returns the empty-defaults record
when the backing file is absent and the parsed document when it is
well-formed JSON; when the file exists but is unparseable the JSON.parse
failure propagates as an exception. -/
theorem loadSession_behavior :
    loadSession none = Except.ok (Json.obj []) ∧
    ∀ s, (loadSession (some s)).isOk = (jsonParse s).isSome := by
  constructor
  · rfl
  · intro s
    unfold loadSession
    cases h : jsonParse s <;> simp [h, Except.isOk, Except.toBool]

/-- Counterexample to C8 as stated: with a cached valid credential and no
currentRoom, the typing update completes but still issues a transport
call to the messaging service — the whoami credential check performed by
getClient — so the transport trace is not empty. -/
theorem setTyping_transport_cx :
    (setTyping "user" "pass" exConn true exStore).2.2 = [MCall.whoami] ∧
    (setTyping "user" "pass" exConn true exStore).2.2 ≠ [] := by
  constructor <;> decide

/-- Claim C8 (amended): with a truthy cached credential that passes the
whoami check and no currentRoom recorded, the typing update completes
without error, leaves the store unchanged, and issues no typing-indicator
or other room-targeted call — only the whoami credential check. -/
theorem setTyping_no_room (user pass : String) (conn : MatrixConn) (t : Bool)
    (store : SessionRecord)
    (htok : truthy store.accessToken = true)
    (huid : truthy store.userId = true)
    (hwho : conn.whoamiOk = true)
    (hroom : truthy store.currentRoom = false) :
    setTyping user pass conn t store = (Except.ok (), store, [MCall.whoami]) := by
  unfold setTyping getClient
  simp [htok, huid, hwho, hroom]

/-- Witness for the amended C8 at a concrete oracle and a store with a
credential but no currentRoom. -/
theorem setTyping_no_room_witness :
    setTyping "user" "pass" exConn true exStore
      = (Except.ok (), exStore, [MCall.whoami]) :=
  setTyping_no_room "user" "pass" exConn true exStore
    (by decide) (by decide) rfl (by decide)

/-- Claim C9: IPCServer.stop is safe and idempotent: after stop the
server handle is cleared and no socket file remains (also when the server
was never started), and a second stop changes neither the server state
nor the file system. -/
theorem IPCServer.stop_idempotent (srv : IPCServer) (fs : Finset String) :
    ((IPCServer.stop srv fs).1).server = false ∧
    srv.socketPath ∉ (IPCServer.stop srv fs).2 ∧
    IPCServer.stop (IPCServer.stop srv fs).1 (IPCServer.stop srv fs).2
      = IPCServer.stop srv fs := by
  have h₁ : ((IPCServer.stop srv fs).1).server = false := by
    unfold IPCServer.stop
    by_cases h : srv.server = true <;> simp [h]
  have hpath : ((IPCServer.stop srv fs).1).socketPath = srv.socketPath := by
    unfold IPCServer.stop
    by_cases h : srv.server = true <;> simp [h]
  have h₂ : srv.socketPath ∉ (IPCServer.stop srv fs).2 := by
    unfold IPCServer.stop
    by_cases h : srv.socketPath ∈ fs <;> simp [h]
  have hnoop : ∀ (s : IPCServer) (f : Finset String),
      s.server = false → s.socketPath ∉ f → IPCServer.stop s f = (s, f) := by
    intro s f hs hf
    unfold IPCServer.stop
    simp [hs, hf]
  exact ⟨h₁, h₂, hnoop _ _ h₁ (by rw [hpath]; exact h₂)⟩

end Jackpoint
